import Mathlib

/-!
Shallow embedding of the `DailyCloudWatchLogArchiver` construct
(`src/index.ts`).  The constructor is a single synchronous derivation:
it validates the job list, derives deterministic names from a SHAKE256
fingerprint, resolves the destination bucket (managed vs external),
builds two IAM roles, a schedule group, and one EventBridge schedule
per job.  We model it as a pure function from the input props and an
environment (the deterministic facts the CDK supplies: the hash
primitive, region, account, the unique ids of the scopes, and the
resolved ARN of the scheduler role) to `Except String SynthOutput`.
-/

/-- `ScheduleTargetProperty` from the source: the invocation payload data. -/
structure ScheduleTargetProperty where
  logGroupName : String
  destinationPrefix : String
deriving DecidableEq, Repr

/-- `ScheduleProperty` from the source: one export job. -/
structure ScheduleProperty where
  name : String
  description : String
  target : ScheduleTargetProperty
deriving DecidableEq, Repr

/-- `DailyCloudWatchLogArchiverProps` from the source.  `targetBucket` is an
optional string (`undefined` becomes `none`). -/
structure DailyCloudWatchLogArchiverProps where
  schedules : List ScheduleProperty
  targetBucket : Option String
deriving DecidableEq, Repr

/-- One entry of an IAM policy-statement `conditions` block, e.g.
`StringEquals / s3:x-amz-acl / bucket-owner-full-control`. -/
structure Condition where
  operator : String
  key : String
  value : String
deriving DecidableEq, Repr

/-- IAM effect. The source only ever uses `ALLOW`. -/
inductive Effect where
  | allow
  | deny
deriving DecidableEq, Repr

/-- An `iam.PolicyStatement` as constructed in the source: effect, service
principals, actions, resources, and conditions. -/
structure PolicyStatement where
  effect : Effect
  principals : List String
  actions : List String
  resources : List String
  conditions : List Condition
deriving DecidableEq, Repr

/-- An `iam.Role` as constructed in the source: physical name (when set),
description (when set), the trusted service principal, attached AWS managed
policies, and named inline policy documents (each a list of statements). -/
structure Role where
  roleName : Option String
  description : Option String
  assumedBy : String
  managedPolicies : List String
  inlinePolicies : List (String × List PolicyStatement)
deriving DecidableEq, Repr

/-- The observable configuration of the `LogArchiverFunction` instance. -/
structure LambdaFunctionModel where
  functionName : String
  description : String
  environmentBucketName : String
deriving DecidableEq, Repr

/-- The `retryPolicy` block of a `CfnSchedule` target. -/
structure RetryPolicy where
  maximumEventAgeInSeconds : Nat
  maximumRetryAttempts : Nat
deriving DecidableEq, Repr

/-- The `target` block of a `CfnSchedule`. -/
structure CfnScheduleTarget where
  arn : String
  roleArn : String
  input : String
  retryPolicy : RetryPolicy
deriving DecidableEq, Repr

/-- One `scheduler.CfnSchedule` as emitted by the loop in the source;
`constructId` is the CDK construct id (second constructor argument). -/
structure CfnSchedule where
  constructId : String
  name : String
  description : String
  state : String
  groupName : String
  flexibleTimeWindowMode : String
  scheduleExpressionTimezone : String
  scheduleExpression : String
  target : CfnScheduleTarget
deriving DecidableEq, Repr

/-- The destination bucket resolution: either a freshly provisioned managed
bucket (with the resource-policy statements attached to it), or a reference
to an existing bucket by name (no policy attached). -/
inductive BucketResolution where
  | managed (bucketName : String) (resourcePolicy : List PolicyStatement)
  | external (bucketName : String)
deriving DecidableEq, Repr

/-- The `localBucket` record threaded through the source constructor. -/
structure LocalBucket where
  bucketName : String
  bucketARN : String
deriving DecidableEq, Repr

/-- The environment the CDK supplies to the constructor: `hash` models
`crypto.createHash(shake256, outputLength 4).update(s).digest(hex)` as a
pure function of its input string (the hash primitive is deterministic);
`region` is `cdk.Stack.of(this).region`; `account` the deployment account;
`scopeUid` and `thisUid` are `cdk.Names.uniqueId(scope)` and
`cdk.Names.uniqueId(this)`; `schedulerRoleArn` is the ARN the provisioning
engine assigns to the scheduler execution role (the source reads it as the
token `schedulerExecutionRole.roleArn`). -/
structure Env where
  hash : String → String
  region : String
  account : String
  scopeUid : String
  thisUid : String
  schedulerRoleArn : String

/-- S3 bucket ARN from a bucket name, the format both `SecureLogBucket` and
`Bucket.fromBucketName` resolve `bucketArn` to. -/
def s3BucketArn (name : String) : String :=
  "arn:aws:s3:::" ++ name

/-- `randomNameKey` in the source: the SHAKE256/4-byte hex fingerprint of
the stable per-deployment identity string `uniqueId(scope)-uniqueId(this)`. -/
def nameSuffix (env : Env) : String :=
  env.hash (env.scopeUid ++ "-" ++ env.thisUid)

/-- `idPrefix` in the source loop: the SHAKE256/4-byte hex fingerprint of a
job's `name` field. -/
def jobFingerprint (env : Env) (schedule : ScheduleProperty) : String :=
  env.hash schedule.name

/-- The regional CloudWatch Logs delivery service principal. -/
def logsPrincipal (region : String) : String :=
  "logs." ++ region ++ ".amazonaws.com"

/-- The two resource-policy statements the source attaches to a freshly
provisioned managed bucket (`addToResourcePolicy`, lines 58-86). -/
def managedBucketPolicy (region bucketArn : String) : List PolicyStatement :=
  [ { effect := .allow
      principals := [logsPrincipal region]
      actions := ["s3:GetBucketAcl"]
      resources := [bucketArn]
      conditions := [] },
    { effect := .allow
      principals := [logsPrincipal region]
      actions := ["s3:PutObject"]
      resources := [bucketArn ++ "/*"]
      conditions := [⟨"StringEquals", "s3:x-amz-acl", "bucket-owner-full-control"⟩] } ]

/-- The source's bucket-mode test:
`props.targetBucket === undefined || props.targetBucket.length === 0`. -/
def bucketUnset (targetBucket : Option String) : Bool :=
  match targetBucket with
  | none => true
  | some tb => tb.length == 0

/-- The bucket branch of the constructor (lines 47-94): provision a new
`SecureLogBucket` named `log-archive-<suffix>` with the resource policy,
or reference the existing bucket by name with no policy. -/
def resolveBucket (env : Env) (targetBucket : Option String) :
    BucketResolution × LocalBucket :=
  if bucketUnset targetBucket then
    let bName := "log-archive-" ++ nameSuffix env
    (.managed bName (managedBucketPolicy env.region (s3BucketArn bName)),
     { bucketName := bName, bucketARN := s3BucketArn bName })
  else
    let tb := targetBucket.getD ""
    (.external tb, { bucketName := tb, bucketARN := s3BucketArn tb })

/-- `lambdaExecutionRole` (lines 98-132). -/
def lambdaExecutionRole (env : Env) (localBucket : LocalBucket) : Role :=
  { roleName := some ("daily-cw-log-archiver-lambda-exec-" ++ nameSuffix env ++ "-role")
    description := some ""
    assumedBy := "lambda.amazonaws.com"
    managedPolicies := ["service-role/AWSLambdaBasicExecutionRole"]
    inlinePolicies :=
      [ ("log-export-policy",
         [ { effect := .allow
             principals := []
             actions := ["logs:CreateExportTask"]
             resources := ["*"]
             conditions := [] } ]),
        ("put-bucket-policy",
         [ { effect := .allow
             principals := []
             actions := ["s3:GetBucketAcl", "s3:PutObject"]
             resources := [localBucket.bucketARN]
             conditions := [] } ]) ] }

/-- `lambdaFunction` (lines 135-142): the `LogArchiverFunction` instance. -/
def lambdaFunction (env : Env) (localBucket : LocalBucket) : LambdaFunctionModel :=
  { functionName := "daily-cw-log-archiver-" ++ nameSuffix env ++ "-func"
    description := "A function to archive logs s3 bucket from CloudWatch Logs."
    environmentBucketName := localBucket.bucketName }

/-- The ARN the token `lambdaFunction.functionArn` resolves to. -/
def lambdaFunctionArn (env : Env) (functionName : String) : String :=
  "arn:aws:lambda:" ++ env.region ++ ":" ++ env.account ++ ":function:" ++ functionName

/-- `schedulerExecutionRole` (lines 145-163): no physical name, no managed
policies, a single inline policy allowing invocation of the function ARN
and its version/alias wildcard suffix. -/
def schedulerExecutionRole (functionArn : String) : Role :=
  { roleName := none
    description := none
    assumedBy := "scheduler.amazonaws.com"
    managedPolicies := []
    inlinePolicies :=
      [ ("lambda-invoke-policy",
         [ { effect := .allow
             principals := []
             actions := ["lambda:InvokeFunction"]
             resources := [functionArn, functionArn ++ ":*"]
             conditions := [] } ]) ] }

/-- `scheduleGroup` name (lines 166-168). -/
def scheduleGroupName (env : Env) : String :=
  "log-archive-schedule-" ++ nameSuffix env ++ "-group"

/-- Lowercase hex digit. -/
def hexDigitChar (n : Nat) : Char :=
  if n < 10 then Char.ofNat (48 + n) else Char.ofNat (87 + n)

/-- Four lowercase hex digits, as in a JSON `\uXXXX` escape. -/
def hex4 (n : Nat) : String :=
  String.mk [hexDigitChar (n / 4096 % 16), hexDigitChar (n / 256 % 16),
             hexDigitChar (n / 16 % 16), hexDigitChar (n % 16)]

/-- JSON string-character escaping as performed by `JSON.stringify`. -/
def jsonEscapeChar (c : Char) : String :=
  if c = '"' then "\\\""
  else if c = '\\' then "\\\\"
  else if c = '\x08' then "\\b"
  else if c = '\x09' then "\\t"
  else if c = '\x0a' then "\\n"
  else if c = '\x0c' then "\\f"
  else if c = '\x0d' then "\\r"
  else if c.toNat < 32 then "\\u" ++ hex4 c.toNat
  else String.singleton c

/-- A JSON string literal for `s`, as produced by `JSON.stringify`. -/
def jsonStringLit (s : String) : String :=
  "\"" ++ String.join (s.data.map jsonEscapeChar) ++ "\""

/-- The schedule `input`:
`JSON.stringify(\x7b logGroupName, destinationPrefix \x7d)` (lines 190-193). -/
def scheduleInput (t : ScheduleTargetProperty) : String :=
  "\x7b\"logGroupName\":" ++ jsonStringLit t.logGroupName ++
    ",\"destinationPrefix\":" ++ jsonStringLit t.destinationPrefix ++ "\x7d"

/-- The cron expression at a given minute offset:
`cron(<index> 13 * * ? *)` (line 186). -/
def cronExpr (index : Nat) : String :=
  "cron(" ++ Nat.repr index ++ " 13 * * ? *)"

/-- One `CfnSchedule` of the loop body (lines 170-200), at loop index
`index` for job `schedule`. -/
def buildSchedule (env : Env) (functionArn groupName : String)
    (index : Nat) (schedule : ScheduleProperty) : CfnSchedule :=
  { constructId := "Schedule" ++ jobFingerprint env schedule
    name := schedule.name
    description := schedule.description
    state := "ENABLED"
    groupName := groupName
    flexibleTimeWindowMode := "OFF"
    scheduleExpressionTimezone := "UTC"
    scheduleExpression := cronExpr index
    target :=
      { arn := functionArn
        roleArn := env.schedulerRoleArn
        input := scheduleInput schedule.target
        retryPolicy := { maximumEventAgeInSeconds := 60, maximumRetryAttempts := 0 } } }

/-- The `CfnSchedule` values of the
`for (const [index, schedule] of Object.entries(props.schedules))` loop,
one per job with the running index made explicit.  This is only the data of
the emitted schedules; the registration of each one as a child construct,
which can fail on a duplicate construct id, is modelled by
`buildSchedules` below. -/
def emittedSchedules (env : Env) (functionArn groupName : String) :
    Nat → List ScheduleProperty → List CfnSchedule
  | _, [] => []
  | i, s :: rest =>
      buildSchedule env functionArn groupName i s ::
        emittedSchedules env functionArn groupName (i + 1) rest

/-- The construct ids `Schedule<idPrefix>` the loop registers, in order,
one per job (line 177). -/
def scheduleIds (env : Env) (l : List ScheduleProperty) : List String :=
  l.map (fun s => "Schedule" ++ jobFingerprint env s)

/-- The error the constructs library throws when a child construct is added
under an id already present in the parent (the real message also appends
the construct path qualifier). -/
def dupChildMsg (cid : String) : String :=
  "There is already a Construct with name \x27" ++ cid ++
    "\x27 in DailyCloudWatchLogArchiver"

/-- One step of the constructs-library child registration (`Node.addChild`):
adding a child whose id is already registered in the parent throws. -/
def addChildId (ids : List String) (cid : String) : Except String (List String) :=
  if cid ∈ ids then
    .error (dupChildMsg cid)
  else
    .ok (cid :: ids)

/-- The loop at lines 170-200 including the constructs-library registration
of each `new CfnSchedule(this, Schedule<idPrefix>, ...)` under its construct
id: when two jobs produce the same id (in particular, equal `name` fields
give equal fingerprints), the second registration throws and the
constructor fails. -/
def buildSchedules (env : Env) (functionArn groupName : String) :
    Nat → List String → List ScheduleProperty → Except String (List CfnSchedule)
  | _, _, [] => .ok []
  | i, ids, s :: rest =>
    match addChildId ids ("Schedule" ++ jobFingerprint env s) with
    | .error msg => .error msg
    | .ok registered =>
      match buildSchedules env functionArn groupName (i + 1) registered rest with
      | .error msg => .error msg
      | .ok tail => .ok (buildSchedule env functionArn groupName i s :: tail)

/-- Everything the constructor emits on the success path. -/
structure SynthOutput where
  bucket : BucketResolution
  localBucket : LocalBucket
  lambdaExecutionRole : Role
  lambdaFunction : LambdaFunctionModel
  functionArn : String
  schedulerExecutionRole : Role
  scheduleGroupName : String
  schedules : List CfnSchedule
deriving DecidableEq, Repr

/-- The success path of the constructor, after validation has passed. -/
def synthOk (env : Env) (props : DailyCloudWatchLogArchiverProps) : SynthOutput :=
  let rb := resolveBucket env props.targetBucket
  let localBucket := rb.2
  let execRole := lambdaExecutionRole env localBucket
  let fn := lambdaFunction env localBucket
  let fnArn := lambdaFunctionArn env fn.functionName
  { bucket := rb.1
    localBucket := localBucket
    lambdaExecutionRole := execRole
    lambdaFunction := fn
    functionArn := fnArn
    schedulerExecutionRole := schedulerExecutionRole fnArn
    scheduleGroupName := scheduleGroupName env
    schedules := emittedSchedules env fnArn (scheduleGroupName env) 0 props.schedules }

/-- The `DailyCloudWatchLogArchiver` constructor: validation first
(lines 30-36), then the resource derivation, with the schedule loop taken
by its emitted values.  On every input whose schedule construct ids are
pairwise distinct this agrees with `dailyCloudWatchLogArchiverSynth`
(theorem `synth_agrees_on_nodup`), which additionally models the
constructs-library child-id registration and therefore fails on duplicate
ids. -/
def dailyCloudWatchLogArchiver (env : Env) (props : DailyCloudWatchLogArchiverProps) :
    Except String SynthOutput :=
  if props.schedules.length = 0 then
    .error "Schedule not set."
  else if props.schedules.length > 60 then
    .error "Maximum number(60) of schedule."
  else
    .ok (synthOk env props)

/-- The `DailyCloudWatchLogArchiver` constructor including the
constructs-library registration of the per-job `CfnSchedule` children:
identical to `dailyCloudWatchLogArchiver` except that the loop faithfully
fails when a second schedule is registered under an already-used construct
id `Schedule<idPrefix>`, as the constructs library throws on duplicate
child ids. -/
def dailyCloudWatchLogArchiverSynth (env : Env) (props : DailyCloudWatchLogArchiverProps) :
    Except String SynthOutput :=
  if props.schedules.length = 0 then
    .error "Schedule not set."
  else if props.schedules.length > 60 then
    .error "Maximum number(60) of schedule."
  else
    match buildSchedules env
        (lambdaFunctionArn env
          (lambdaFunction env (resolveBucket env props.targetBucket).2).functionName)
        (scheduleGroupName env) 0 [] props.schedules with
    | .error msg => .error msg
    | .ok scheds => .ok { synthOk env props with schedules := scheds }

/-! ### Basic lemmas about the embedding -/

theorem construct_ok (env : Env) (props : DailyCloudWatchLogArchiverProps)
    (h1 : 1 ≤ props.schedules.length) (h2 : props.schedules.length ≤ 60) :
    dailyCloudWatchLogArchiver env props = Except.ok (synthOk env props) := by
  unfold dailyCloudWatchLogArchiver
  rw [if_neg (by omega), if_neg (by omega)]

theorem emittedSchedules_length (env : Env) (functionArn groupName : String)
    (i : Nat) (l : List ScheduleProperty) :
    (emittedSchedules env functionArn groupName i l).length = l.length := by
  induction l generalizing i with
  | nil => rfl
  | cons s rest ih => simp [emittedSchedules, ih]

theorem emittedSchedules_getElem (env : Env) (functionArn groupName : String)
    (i : Nat) (l : List ScheduleProperty) (j : Nat) (hj : j < l.length)
    (hj2 : j < (emittedSchedules env functionArn groupName i l).length) :
    (emittedSchedules env functionArn groupName i l)[j] =
      buildSchedule env functionArn groupName (i + j) l[j] := by
  induction l generalizing i j with
  | nil => exact absurd hj (Nat.not_lt_zero j)
  | cons s rest ih =>
    cases j with
    | zero => simp [emittedSchedules]
    | succ j' =>
      have hj' : j' < rest.length := by simpa using hj
      have hj2' : j' < (emittedSchedules env functionArn groupName (i + 1) rest).length := by
        rw [emittedSchedules_length]; exact hj'
      simp only [emittedSchedules, List.getElem_cons_succ]
      rw [ih (i + 1) j' hj' hj2']
      congr 1
      omega

theorem emittedSchedules_mem_ex (env : Env) (functionArn groupName : String) (i : Nat)
    (l : List ScheduleProperty) (c : CfnSchedule)
    (hc : c ∈ emittedSchedules env functionArn groupName i l) :
    ∃ idx s, s ∈ l ∧ c = buildSchedule env functionArn groupName idx s := by
  induction l generalizing i with
  | nil => simp [emittedSchedules] at hc
  | cons a rest ih =>
    simp only [emittedSchedules, List.mem_cons] at hc
    rcases hc with h | h
    · exact ⟨i, a, List.mem_cons_self a rest, h⟩
    · obtain ⟨idx, s, hs, he⟩ := ih (i + 1) h
      exact ⟨idx, s, List.mem_cons_of_mem a hs, he⟩

theorem synthOk_schedules (env : Env) (props : DailyCloudWatchLogArchiverProps) :
    (synthOk env props).schedules =
      emittedSchedules env (synthOk env props).functionArn
        (scheduleGroupName env) 0 props.schedules := rfl

theorem synthOk_schedules_length (env : Env) (props : DailyCloudWatchLogArchiverProps) :
    (synthOk env props).schedules.length = props.schedules.length := by
  rw [synthOk_schedules, emittedSchedules_length]

theorem cronExpr_injOn61 : ∀ a < 61, ∀ b < 61, cronExpr a = cronExpr b → a = b := by
  decide

theorem range_map_cronExpr_nodup (n : Nat) (hn : n ≤ 60) :
    ((List.range n).map cronExpr).Nodup := by
  refine List.Nodup.map_on ?_ (List.nodup_range n)
  intro x hx y hy hxy
  rw [List.mem_range] at hx hy
  exact cronExpr_injOn61 x (by omega) y (by omega) hxy

theorem synthOk_schedules_getElem (env : Env) (props : DailyCloudWatchLogArchiverProps)
    (n : Nat) (hn : n < props.schedules.length)
    (hn2 : n < (synthOk env props).schedules.length) :
    (synthOk env props).schedules[n] =
      buildSchedule env (synthOk env props).functionArn (scheduleGroupName env) n
        props.schedules[n] := by
  have key := emittedSchedules_getElem env (synthOk env props).functionArn
    (scheduleGroupName env) 0 props.schedules n hn
    (by rw [emittedSchedules_length]; exact hn)
  rw [Nat.zero_add] at key
  exact key

theorem synthOk_schedules_map_expr (env : Env) (props : DailyCloudWatchLogArchiverProps) :
    (synthOk env props).schedules.map (fun s => s.scheduleExpression) =
      (List.range props.schedules.length).map cronExpr := by
  apply List.ext_get
  · simp [synthOk_schedules_length]
  · intro n h₁ h₂
    have hn : n < props.schedules.length := by
      rw [List.length_map, synthOk_schedules_length] at h₁; exact h₁
    have hn2 : n < (synthOk env props).schedules.length := by
      rw [synthOk_schedules_length]; exact hn
    simp only [List.get_eq_getElem, List.getElem_map, List.getElem_range]
    exact congrArg CfnSchedule.scheduleExpression
      (synthOk_schedules_getElem env props n hn hn2)

theorem buildSchedules_ok_of_fresh (env : Env) (functionArn groupName : String)
    (i : Nat) (ids : List String) (l : List ScheduleProperty)
    (hnd : (scheduleIds env l).Nodup)
    (hfresh : ∀ c ∈ scheduleIds env l, c ∉ ids) :
    buildSchedules env functionArn groupName i ids l =
      Except.ok (emittedSchedules env functionArn groupName i l) := by
  induction l generalizing i ids with
  | nil => rfl
  | cons s rest ih =>
    rw [scheduleIds, List.map_cons, List.nodup_cons] at hnd
    obtain ⟨hhead, hrest⟩ := hnd
    have hcid : ("Schedule" ++ jobFingerprint env s) ∉ ids :=
      hfresh _ (by rw [scheduleIds, List.map_cons]; exact List.mem_cons_self _ _)
    have hfresh2 : ∀ c ∈ scheduleIds env rest,
        c ∉ ("Schedule" ++ jobFingerprint env s) :: ids := by
      intro c hc
      rw [List.mem_cons, not_or]
      refine ⟨fun hceq => hhead (hceq ▸ hc), ?_⟩
      exact hfresh c (by rw [scheduleIds, List.map_cons]; exact List.mem_cons_of_mem _ hc)
    simp only [buildSchedules, addChildId, if_neg hcid]
    rw [ih (i + 1) _ hrest hfresh2]
    rfl

theorem buildSchedules_cons_step (env : Env) (functionArn groupName : String)
    (i : Nat) (ids : List String) (s : ScheduleProperty) (rest : List ScheduleProperty)
    (hc : ("Schedule" ++ jobFingerprint env s) ∉ ids) :
    buildSchedules env functionArn groupName i ids (s :: rest) =
      match buildSchedules env functionArn groupName (i + 1)
          (("Schedule" ++ jobFingerprint env s) :: ids) rest with
      | .error msg => .error msg
      | .ok tail => .ok (buildSchedule env functionArn groupName i s :: tail) := by
  simp only [buildSchedules, addChildId, if_neg hc]

theorem buildSchedules_ok_nodup (env : Env) (functionArn groupName : String)
    (i : Nat) (ids : List String) (l : List ScheduleProperty) :
    ∀ res, buildSchedules env functionArn groupName i ids l = Except.ok res →
      (scheduleIds env l).Nodup ∧ ∀ c ∈ scheduleIds env l, c ∉ ids := by
  induction l generalizing i ids with
  | nil =>
    intro res _
    exact ⟨List.nodup_nil, by simp [scheduleIds]⟩
  | cons s rest ih =>
    intro res h
    by_cases hc : ("Schedule" ++ jobFingerprint env s) ∈ ids
    · exfalso
      have h2 : (Except.error (dupChildMsg ("Schedule" ++ jobFingerprint env s)) :
          Except String (List CfnSchedule)) = Except.ok res := by
        rw [← h]
        simp only [buildSchedules, addChildId, if_pos hc]
      exact Except.noConfusion h2
    · rw [buildSchedules_cons_step env functionArn groupName i ids s rest hc] at h
      cases hrec : buildSchedules env functionArn groupName (i + 1)
          (("Schedule" ++ jobFingerprint env s) :: ids) rest with
      | error m =>
        rw [hrec] at h
        exact absurd h (by simp)
      | ok tail =>
        obtain ⟨hnd, hfresh⟩ := ih (i + 1) _ tail hrec
        constructor
        · rw [scheduleIds, List.map_cons, List.nodup_cons]
          refine ⟨fun hmem => ?_, hnd⟩
          exact (hfresh _ hmem) (List.mem_cons_self _ _)
        · intro c hcmem
          rw [scheduleIds, List.map_cons, List.mem_cons] at hcmem
          rcases hcmem with rfl | hcr
          · exact hc
          · have hnot := hfresh c hcr
            rw [List.mem_cons, not_or] at hnot
            exact hnot.2

theorem buildSchedules_error_shape (env : Env) (functionArn groupName : String)
    (i : Nat) (ids : List String) (l : List ScheduleProperty) :
    ∀ msg, buildSchedules env functionArn groupName i ids l = Except.error msg →
      ∃ cid, msg = dupChildMsg cid := by
  induction l generalizing i ids with
  | nil =>
    intro msg h
    exact absurd h (by simp [buildSchedules])
  | cons s rest ih =>
    intro msg h
    by_cases hc : ("Schedule" ++ jobFingerprint env s) ∈ ids
    · refine ⟨"Schedule" ++ jobFingerprint env s, ?_⟩
      have h2 : (Except.error (dupChildMsg ("Schedule" ++ jobFingerprint env s)) :
          Except String (List CfnSchedule)) = Except.error msg := by
        rw [← h]
        simp only [buildSchedules, addChildId, if_pos hc]
      exact (Except.error.inj h2).symm
    · rw [buildSchedules_cons_step env functionArn groupName i ids s rest hc] at h
      cases hrec : buildSchedules env functionArn groupName (i + 1)
          (("Schedule" ++ jobFingerprint env s) :: ids) rest with
      | error m =>
        rw [hrec] at h
        obtain ⟨cid, hm⟩ := ih (i + 1) _ m hrec
        have h3 : m = msg := Except.error.inj h
        exact ⟨cid, h3 ▸ hm⟩
      | ok tail =>
        rw [hrec] at h
        exact absurd h (by simp)

theorem synth_ok_of_nodup (env : Env) (props : DailyCloudWatchLogArchiverProps)
    (h1 : 1 ≤ props.schedules.length) (h2 : props.schedules.length ≤ 60)
    (hids : (scheduleIds env props.schedules).Nodup) :
    dailyCloudWatchLogArchiverSynth env props = Except.ok (synthOk env props) := by
  unfold dailyCloudWatchLogArchiverSynth
  rw [if_neg (by omega), if_neg (by omega)]
  rw [buildSchedules_ok_of_fresh env _ _ 0 [] props.schedules hids (by simp)]
  rfl

theorem synth_agrees_on_nodup (env : Env) (props : DailyCloudWatchLogArchiverProps)
    (hids : (scheduleIds env props.schedules).Nodup) :
    dailyCloudWatchLogArchiverSynth env props = dailyCloudWatchLogArchiver env props := by
  by_cases h0 : props.schedules.length = 0
  · unfold dailyCloudWatchLogArchiverSynth dailyCloudWatchLogArchiver
    rw [if_pos h0, if_pos h0]
  · by_cases h60 : props.schedules.length > 60
    · unfold dailyCloudWatchLogArchiverSynth dailyCloudWatchLogArchiver
      rw [if_neg h0, if_pos h60, if_neg h0, if_pos h60]
    · rw [construct_ok env props (by omega) (by omega),
        synth_ok_of_nodup env props (by omega) (by omega) hids]

/-! ### Claim C1 -/

/-- Claim C1 (amended): for every props whose schedules list has length n
with 1 ≤ n ≤ 60 and whose per-job synthesized construct ids (the images
Schedule<fingerprint of name>) are pairwise distinct, construction
succeeds and emits exactly one schedule per job (n in total); the schedule
at zero-based position i has cron expression cron(i 13 * * ? *), i.e.
minute offset i bound to the fixed hour 13, so the emitted cron
expressions are exactly the image of the offsets 0..n-1 with no
duplicates, and every schedule uses timezone UTC.  Without the
distinctness restriction the constructor fails at the second schedule
registered under a repeated construct id (see the counterexample). -/
theorem schedules_cover_minutes (env : Env) (props : DailyCloudWatchLogArchiverProps)
    (h1 : 1 ≤ props.schedules.length) (h2 : props.schedules.length ≤ 60)
    (hids : (scheduleIds env props.schedules).Nodup) :
    ∃ out, dailyCloudWatchLogArchiverSynth env props = Except.ok out ∧
      out.schedules.length = props.schedules.length ∧
      out.schedules.map (fun s => s.scheduleExpression) =
        (List.range props.schedules.length).map cronExpr ∧
      (out.schedules.map (fun s => s.scheduleExpression)).Nodup ∧
      ∀ s ∈ out.schedules, s.scheduleExpressionTimezone = "UTC" := by
  refine ⟨synthOk env props, synth_ok_of_nodup env props h1 h2 hids,
    synthOk_schedules_length env props, synthOk_schedules_map_expr env props, ?_, ?_⟩
  · rw [synthOk_schedules_map_expr]
    exact range_map_cronExpr_nodup _ h2
  · intro s hs
    rw [synthOk_schedules] at hs
    obtain ⟨idx, j, _, he⟩ := emittedSchedules_mem_ex _ _ _ _ _ _ hs
    rw [he]
    rfl

/-! ### Concrete fixtures used by witnesses -/

/-- A concrete environment for witness instantiations; the hash field may be
any function since the theorems hold for all of them. -/
def envW : Env :=
  { hash := fun s => s
    region := "us-east-1"
    account := "123456789012"
    scopeUid := "MyStack"
    thisUid := "Archiver"
    schedulerRoleArn := "arn:aws:iam::123456789012:role/scheduler-exec" }

/-- A concrete export job. -/
def jobW : ScheduleProperty :=
  { name := "daily-app-logs"
    description := "d"
    target := { logGroupName := "/app/prod", destinationPrefix := "app/" } }

/-- A second concrete export job with a different name. -/
def jobW2 : ScheduleProperty :=
  { name := "daily-db-logs"
    description := "e"
    target := { logGroupName := "/db/prod", destinationPrefix := "db/" } }

/-- One-job props with no target bucket. -/
def propsW1 : DailyCloudWatchLogArchiverProps :=
  { schedules := [jobW], targetBucket := none }

/-- Two-job props with no target bucket. -/
def propsW2 : DailyCloudWatchLogArchiverProps :=
  { schedules := [jobW, jobW2], targetBucket := none }

/-- Witness for the amended claim C1, at a single-job input. -/
theorem schedules_cover_minutes_witness :
    (1 ≤ propsW1.schedules.length ∧ propsW1.schedules.length ≤ 60 ∧
      (scheduleIds envW propsW1.schedules).Nodup) ∧
      (∃ out, dailyCloudWatchLogArchiverSynth envW propsW1 = Except.ok out ∧
        out.schedules.length = propsW1.schedules.length ∧
        out.schedules.map (fun s => s.scheduleExpression) =
          (List.range propsW1.schedules.length).map cronExpr ∧
        (out.schedules.map (fun s => s.scheduleExpression)).Nodup ∧
        ∀ s ∈ out.schedules, s.scheduleExpressionTimezone = "UTC") :=
  ⟨⟨by decide, by decide, by decide⟩,
   schedules_cover_minutes envW propsW1 (by decide) (by decide) (by decide)⟩

/-- Counterexample to claim C1 as frozen (which quantifies over every props
of length 1..60, with no distinct-names restriction): the two-job props
whose jobs share a name has length 2, yet construction does not emit two
schedules — the second CfnSchedule is registered under the construct id of
the first (both are Schedule followed by the fingerprint of the shared
name) and the constructs library rejects the duplicate child id, so the
constructor throws and emits nothing. -/
theorem schedules_cover_minutes_counterexample :
    (1 ≤ ([jobW, jobW] : List ScheduleProperty).length ∧
      ([jobW, jobW] : List ScheduleProperty).length ≤ 60) ∧
    dailyCloudWatchLogArchiverSynth envW ⟨[jobW, jobW], none⟩ =
      Except.error (dupChildMsg ("Schedule" ++ envW.hash jobW.name)) ∧
    ∀ out, dailyCloudWatchLogArchiverSynth envW ⟨[jobW, jobW], none⟩ ≠ Except.ok out := by
  refine ⟨⟨by decide, by decide⟩, by rfl, ?_⟩
  intro out hout
  rw [show dailyCloudWatchLogArchiverSynth envW ⟨[jobW, jobW], none⟩ =
      Except.error (dupChildMsg ("Schedule" ++ envW.hash jobW.name)) from by rfl] at hout
  exact Except.noConfusion hout

/-! ### Claim C3 -/

/-- Claim C3: construction fails with the no-jobs error when the schedules
list is empty and with the too-many-jobs error when its length exceeds 60,
and these two checks are the only failure sources, so an error means no
output at all was produced (all-or-nothing emission). -/
theorem validation_all_or_nothing (env : Env) (props : DailyCloudWatchLogArchiverProps) :
    (props.schedules.length = 0 →
       dailyCloudWatchLogArchiver env props = Except.error "Schedule not set.") ∧
    (props.schedules.length > 60 →
       dailyCloudWatchLogArchiver env props = Except.error "Maximum number(60) of schedule.") ∧
    (∀ msg, dailyCloudWatchLogArchiver env props = Except.error msg →
       props.schedules.length = 0 ∨ props.schedules.length > 60) := by
  refine ⟨?_, ?_, ?_⟩
  · intro h
    unfold dailyCloudWatchLogArchiver
    rw [if_pos h]
  · intro h
    unfold dailyCloudWatchLogArchiver
    rw [if_neg (by omega), if_pos h]
  · intro msg hmsg
    by_contra hc
    push_neg at hc
    obtain ⟨h0, h60⟩ := hc
    rw [construct_ok env props (by omega) (by omega)] at hmsg
    exact Except.noConfusion hmsg

/-- Witness for claim C3: the empty job list and a 61-job list both fail
with the corresponding error message. -/
theorem validation_all_or_nothing_witness :
    dailyCloudWatchLogArchiver envW { schedules := [], targetBucket := none } =
      Except.error "Schedule not set." ∧
    dailyCloudWatchLogArchiver envW
        { schedules := List.replicate 61 jobW, targetBucket := none } =
      Except.error "Maximum number(60) of schedule." :=
  ⟨(validation_all_or_nothing envW { schedules := [], targetBucket := none }).1 rfl,
   (validation_all_or_nothing envW
      { schedules := List.replicate 61 jobW, targetBucket := none }).2.1 (by simp)⟩

/-! ### Claim C2 -/

/-- Claim C2: exactly one of the two bucket modes is taken, decided solely
by whether targetBucket is supplied and non-empty.  If it is undefined or
empty, a managed bucket named log-archive-(suffix) is provisioned with a
resource policy granting the regional logs-delivery principal GetBucketAcl
on the bucket ARN and PutObject on objects under it conditional on the
bucket-owner-full-control ACL; otherwise the bucket is resolved by name
only, with no resource policy attached. -/
theorem bucket_mode_exclusive (env : Env) (props : DailyCloudWatchLogArchiverProps)
    (h1 : 1 ≤ props.schedules.length) (h2 : props.schedules.length ≤ 60) :
    ∃ out, dailyCloudWatchLogArchiver env props = Except.ok out ∧
      ((props.targetBucket = none ∨ props.targetBucket = some "") →
        out.bucket =
          BucketResolution.managed ("log-archive-" ++ nameSuffix env)
            [ { effect := .allow
                principals := ["logs." ++ env.region ++ ".amazonaws.com"]
                actions := ["s3:GetBucketAcl"]
                resources := ["arn:aws:s3:::" ++ ("log-archive-" ++ nameSuffix env)]
                conditions := [] },
              { effect := .allow
                principals := ["logs." ++ env.region ++ ".amazonaws.com"]
                actions := ["s3:PutObject"]
                resources := ["arn:aws:s3:::" ++ ("log-archive-" ++ nameSuffix env) ++ "/*"]
                conditions :=
                  [⟨"StringEquals", "s3:x-amz-acl", "bucket-owner-full-control"⟩] } ] ∧
        out.localBucket =
          ⟨"log-archive-" ++ nameSuffix env,
           "arn:aws:s3:::" ++ ("log-archive-" ++ nameSuffix env)⟩) ∧
      (∀ tb, props.targetBucket = some tb → tb ≠ "" →
        out.bucket = BucketResolution.external tb ∧
        out.localBucket = ⟨tb, "arn:aws:s3:::" ++ tb⟩) := by
  refine ⟨synthOk env props, construct_ok env props h1 h2, ?_, ?_⟩
  · intro h
    rcases h with h | h <;>
      simp [synthOk, resolveBucket, bucketUnset, managedBucketPolicy, s3BucketArn,
        logsPrincipal, h]
  · intro tb htb hne
    have hlen : tb.length ≠ 0 := by
      intro h0
      apply hne
      cases tb with
      | mk data =>
        cases data with
        | nil => rfl
        | cons c cs => simp [String.length] at h0
    have hb : bucketUnset (some tb) = false := by
      simp [bucketUnset]
      exact hlen
    simp [synthOk, resolveBucket, htb, hb, s3BucketArn]

/-- Witness for claim C2, exercising both the managed mode (no target
bucket) and the external mode (a non-empty bucket name). -/
theorem bucket_mode_exclusive_witness :
    (∃ out, dailyCloudWatchLogArchiver envW propsW1 = Except.ok out ∧
      out.bucket =
        BucketResolution.managed ("log-archive-" ++ nameSuffix envW)
          [ { effect := .allow
              principals := ["logs." ++ envW.region ++ ".amazonaws.com"]
              actions := ["s3:GetBucketAcl"]
              resources := ["arn:aws:s3:::" ++ ("log-archive-" ++ nameSuffix envW)]
              conditions := [] },
            { effect := .allow
              principals := ["logs." ++ envW.region ++ ".amazonaws.com"]
              actions := ["s3:PutObject"]
              resources := ["arn:aws:s3:::" ++ ("log-archive-" ++ nameSuffix envW) ++ "/*"]
              conditions :=
                [⟨"StringEquals", "s3:x-amz-acl", "bucket-owner-full-control"⟩] } ]) ∧
    (∃ out,
      dailyCloudWatchLogArchiver envW { schedules := [jobW], targetBucket := some "my-bucket" } =
        Except.ok out ∧
      out.bucket = BucketResolution.external "my-bucket" ∧
      out.localBucket = ⟨"my-bucket", "arn:aws:s3:::" ++ "my-bucket"⟩) := by
  constructor
  · obtain ⟨out, hok, hm, _⟩ := bucket_mode_exclusive envW propsW1 (by decide) (by decide)
    exact ⟨out, hok, (hm (Or.inl rfl)).1⟩
  · obtain ⟨out, hok, _, he⟩ :=
      bucket_mode_exclusive envW { schedules := [jobW], targetBucket := some "my-bucket" }
        (by decide) (by decide)
    exact ⟨out, hok, he "my-bucket" rfl (by decide)⟩

/-! ### Claim C4 -/

/-- Counterexample to claim C4 as stated: at a concrete input, the
put-bucket-policy statement of the Lambda execution role names the resolved
bucket ARN as its only resource; the object-prefix ARN bucketArn/* is not
among its resources, so the claim that s3:GetBucketAcl and s3:PutObject are
scoped to both ARNs is false. -/
theorem lambda_role_object_scope_counterexample :
    ∃ out,
      dailyCloudWatchLogArchiver envW
          { schedules := [jobW], targetBucket := some "my-bucket" } =
        Except.ok out ∧
      out.lambdaExecutionRole.inlinePolicies =
        [ ("log-export-policy",
           [{ effect := .allow, principals := [], actions := ["logs:CreateExportTask"],
              resources := ["*"], conditions := [] }]),
          ("put-bucket-policy",
           [{ effect := .allow, principals := [],
              actions := ["s3:GetBucketAcl", "s3:PutObject"],
              resources := ["arn:aws:s3:::my-bucket"], conditions := [] }]) ] ∧
      (["arn:aws:s3:::my-bucket"] : List String) ≠
        ["arn:aws:s3:::my-bucket", "arn:aws:s3:::my-bucket/*"] ∧
      "arn:aws:s3:::my-bucket/*" ∉ (["arn:aws:s3:::my-bucket"] : List String) := by
  refine ⟨synthOk envW { schedules := [jobW], targetBucket := some "my-bucket" },
    construct_ok _ _ (by decide) (by decide), by decide, by decide, by decide⟩

/-- Claim C4 (amended): the Lambda execution role is trusted by the lambda
service principal; its capabilities are logs:CreateExportTask on the
wildcard resource, and s3:GetBucketAcl plus s3:PutObject scoped to the
resolved bucket ARN only (the object-prefix ARN bucketArn/* is not
included), plus the AWS managed basic-execution policy. -/
theorem lambda_role_capabilities (env : Env) (props : DailyCloudWatchLogArchiverProps)
    (h1 : 1 ≤ props.schedules.length) (h2 : props.schedules.length ≤ 60) :
    ∃ out, dailyCloudWatchLogArchiver env props = Except.ok out ∧
      out.lambdaExecutionRole.assumedBy = "lambda.amazonaws.com" ∧
      out.lambdaExecutionRole.managedPolicies =
        ["service-role/AWSLambdaBasicExecutionRole"] ∧
      out.lambdaExecutionRole.inlinePolicies =
        [ ("log-export-policy",
           [{ effect := .allow, principals := [], actions := ["logs:CreateExportTask"],
              resources := ["*"], conditions := [] }]),
          ("put-bucket-policy",
           [{ effect := .allow, principals := [],
              actions := ["s3:GetBucketAcl", "s3:PutObject"],
              resources := [out.localBucket.bucketARN], conditions := [] }]) ] := by
  exact ⟨synthOk env props, construct_ok env props h1 h2, rfl, rfl, rfl⟩

/-- Witness for the amended claim C4. -/
theorem lambda_role_capabilities_witness :
    ∃ out, dailyCloudWatchLogArchiver envW propsW2 = Except.ok out ∧
      out.lambdaExecutionRole.assumedBy = "lambda.amazonaws.com" ∧
      out.lambdaExecutionRole.managedPolicies =
        ["service-role/AWSLambdaBasicExecutionRole"] ∧
      out.lambdaExecutionRole.inlinePolicies =
        [ ("log-export-policy",
           [{ effect := .allow, principals := [], actions := ["logs:CreateExportTask"],
              resources := ["*"], conditions := [] }]),
          ("put-bucket-policy",
           [{ effect := .allow, principals := [],
              actions := ["s3:GetBucketAcl", "s3:PutObject"],
              resources := [out.localBucket.bucketARN], conditions := [] }]) ] :=
  lambda_role_capabilities envW propsW2 (by decide) (by decide)

/-! ### Claim C7 -/

/-- Claim C7: the scheduler-invocation role trusts the scheduler service
principal, has no physical name, no managed policies, and exactly one
inline policy with exactly one statement allowing lambda:InvokeFunction on
exactly the function ARN and its version/alias wildcard suffix. -/
theorem scheduler_role_least_privilege (env : Env) (props : DailyCloudWatchLogArchiverProps)
    (h1 : 1 ≤ props.schedules.length) (h2 : props.schedules.length ≤ 60) :
    ∃ out, dailyCloudWatchLogArchiver env props = Except.ok out ∧
      out.schedulerExecutionRole =
        { roleName := none
          description := none
          assumedBy := "scheduler.amazonaws.com"
          managedPolicies := []
          inlinePolicies :=
            [("lambda-invoke-policy",
              [{ effect := .allow, principals := [],
                 actions := ["lambda:InvokeFunction"],
                 resources := [out.functionArn, out.functionArn ++ ":*"],
                 conditions := [] }])] } := by
  exact ⟨synthOk env props, construct_ok env props h1 h2, rfl⟩

/-- Witness for claim C7. -/
theorem scheduler_role_least_privilege_witness :
    ∃ out, dailyCloudWatchLogArchiver envW propsW1 = Except.ok out ∧
      out.schedulerExecutionRole =
        { roleName := none
          description := none
          assumedBy := "scheduler.amazonaws.com"
          managedPolicies := []
          inlinePolicies :=
            [("lambda-invoke-policy",
              [{ effect := .allow, principals := [],
                 actions := ["lambda:InvokeFunction"],
                 resources := [out.functionArn, out.functionArn ++ ":*"],
                 conditions := [] }])] } :=
  scheduler_role_least_privilege envW propsW1 (by decide) (by decide)

/-! ### Claim C8 -/

/-- Claim C8: every emitted schedule carries the JSON payload built from its
own job's target (logGroupName and destinationPrefix), and every schedule,
regardless of input, carries the retry policy with
maximumEventAgeInSeconds = 60 and maximumRetryAttempts = 0. -/
theorem schedule_payload_and_retry (env : Env) (props : DailyCloudWatchLogArchiverProps)
    (h1 : 1 ≤ props.schedules.length) (h2 : props.schedules.length ≤ 60) :
    ∃ out, dailyCloudWatchLogArchiver env props = Except.ok out ∧
      (∀ i (hi : i < props.schedules.length) (hi2 : i < out.schedules.length),
        (out.schedules.get ⟨i, hi2⟩).target.input =
          scheduleInput ((props.schedules.get ⟨i, hi⟩).target)) ∧
      (∀ s ∈ out.schedules,
        s.target.retryPolicy =
          { maximumEventAgeInSeconds := 60, maximumRetryAttempts := 0 }) := by
  refine ⟨synthOk env props, construct_ok env props h1 h2, ?_, ?_⟩
  · intro i hi hi2
    simp only [List.get_eq_getElem]
    exact congrArg (fun c => c.target.input) (synthOk_schedules_getElem env props i hi hi2)
  · intro s hs
    rw [synthOk_schedules] at hs
    obtain ⟨idx, j, _, he⟩ := emittedSchedules_mem_ex _ _ _ _ _ _ hs
    rw [he]
    rfl

/-- Witness for claim C8. -/
theorem schedule_payload_and_retry_witness :
    ∃ out, dailyCloudWatchLogArchiver envW propsW1 = Except.ok out ∧
      (∀ i (hi : i < propsW1.schedules.length) (hi2 : i < out.schedules.length),
        (out.schedules.get ⟨i, hi2⟩).target.input =
          scheduleInput ((propsW1.schedules.get ⟨i, hi⟩).target)) ∧
      (∀ s ∈ out.schedules,
        s.target.retryPolicy =
          { maximumEventAgeInSeconds := 60, maximumRetryAttempts := 0 }) :=
  schedule_payload_and_retry envW propsW1 (by decide) (by decide)

/-! ### Claim C5 -/

/-- Claim C5: for two JobSets containing the same ExportJobs in different
orders, a job occurring at position i in one list and position j in the
other receives the same synthesized schedule construct id in both
derivations (it is derived from the fingerprint of the name alone), while
its cron minute offset follows its position in each list. -/
theorem reorder_stable_ids (env : Env) (tb : Option String)
    (l₁ l₂ : List ScheduleProperty) (hperm : l₁.Perm l₂)
    (h1 : 1 ≤ l₁.length) (h2 : l₁.length ≤ 60)
    (i₁ i₂ : Nat) (hi₁ : i₁ < l₁.length) (hi₂ : i₂ < l₂.length)
    (hname : (l₁.get ⟨i₁, hi₁⟩).name = (l₂.get ⟨i₂, hi₂⟩).name) :
    ∃ out₁ out₂,
      dailyCloudWatchLogArchiver env ⟨l₁, tb⟩ = Except.ok out₁ ∧
      dailyCloudWatchLogArchiver env ⟨l₂, tb⟩ = Except.ok out₂ ∧
      ∃ (hj₁ : i₁ < out₁.schedules.length) (hj₂ : i₂ < out₂.schedules.length),
        (out₁.schedules.get ⟨i₁, hj₁⟩).constructId =
          (out₂.schedules.get ⟨i₂, hj₂⟩).constructId ∧
        (out₁.schedules.get ⟨i₁, hj₁⟩).constructId =
          "Schedule" ++ env.hash ((l₁.get ⟨i₁, hi₁⟩).name) ∧
        (out₁.schedules.get ⟨i₁, hj₁⟩).scheduleExpression = cronExpr i₁ ∧
        (out₂.schedules.get ⟨i₂, hj₂⟩).scheduleExpression = cronExpr i₂ := by
  have hlen : l₂.length = l₁.length := hperm.length_eq.symm
  have h1' : 1 ≤ l₂.length := by omega
  have h2' : l₂.length ≤ 60 := by omega
  have hj₁ : i₁ < (synthOk env ⟨l₁, tb⟩).schedules.length := by
    rw [synthOk_schedules_length]; exact hi₁
  have hj₂ : i₂ < (synthOk env ⟨l₂, tb⟩).schedules.length := by
    rw [synthOk_schedules_length]; exact hi₂
  have g₁ := synthOk_schedules_getElem env ⟨l₁, tb⟩ i₁ hi₁ hj₁
  have g₂ := synthOk_schedules_getElem env ⟨l₂, tb⟩ i₂ hi₂ hj₂
  refine ⟨synthOk env ⟨l₁, tb⟩, synthOk env ⟨l₂, tb⟩,
    construct_ok env ⟨l₁, tb⟩ h1 h2, construct_ok env ⟨l₂, tb⟩ h1' h2',
    hj₁, hj₂, ?_, ?_, ?_, ?_⟩
  · simp only [List.get_eq_getElem]
    rw [g₁, g₂]
    simp only [buildSchedule, jobFingerprint]
    rw [List.get_eq_getElem] at hname
    rw [List.get_eq_getElem] at hname
    rw [hname]
  · simp only [List.get_eq_getElem]
    rw [g₁]
    rfl
  · simp only [List.get_eq_getElem]
    rw [g₁]
    rfl
  · simp only [List.get_eq_getElem]
    rw [g₂]
    rfl

/-- Witness for claim C5: the two-job set in both orders; the first job sits
at position 0 in one list and position 1 in the other. -/
theorem reorder_stable_ids_witness :
    ∃ out₁ out₂,
      dailyCloudWatchLogArchiver envW ⟨[jobW, jobW2], none⟩ = Except.ok out₁ ∧
      dailyCloudWatchLogArchiver envW ⟨[jobW2, jobW], none⟩ = Except.ok out₂ ∧
      ∃ (hj₁ : 0 < out₁.schedules.length) (hj₂ : 1 < out₂.schedules.length),
        (out₁.schedules.get ⟨0, hj₁⟩).constructId =
          (out₂.schedules.get ⟨1, hj₂⟩).constructId ∧
        (out₁.schedules.get ⟨0, hj₁⟩).constructId =
          "Schedule" ++ envW.hash (([jobW, jobW2].get ⟨0, by decide⟩).name) ∧
        (out₁.schedules.get ⟨0, hj₁⟩).scheduleExpression = cronExpr 0 ∧
        (out₂.schedules.get ⟨1, hj₂⟩).scheduleExpression = cronExpr 1 :=
  reorder_stable_ids envW none [jobW, jobW2] [jobW2, jobW]
    (List.Perm.swap jobW2 jobW []) (by decide) (by decide) 0 1
    (by decide) (by decide) (by decide)

/-! ### Claim C6 -/

/-- Claim C6: derivation is deterministic.  Two runs whose environments
agree on the hash primitive, the deployment identity strings, the region,
the account, and the resolved scheduler-role ARN produce the identical
NameSuffix, identical per-job fingerprints, and the identical construction
result (in particular the identical list of schedule descriptors); the
embedding involves no randomness. -/
theorem derivation_deterministic (e₁ e₂ : Env) (props : DailyCloudWatchLogArchiverProps)
    (hh : e₁.hash = e₂.hash) (hsc : e₁.scopeUid = e₂.scopeUid)
    (hth : e₁.thisUid = e₂.thisUid) (hr : e₁.region = e₂.region)
    (ha : e₁.account = e₂.account)
    (hra : e₁.schedulerRoleArn = e₂.schedulerRoleArn) :
    nameSuffix e₁ = nameSuffix e₂ ∧
    (∀ s, jobFingerprint e₁ s = jobFingerprint e₂ s) ∧
    dailyCloudWatchLogArchiver e₁ props = dailyCloudWatchLogArchiver e₂ props := by
  have he : e₁ = e₂ := by
    cases e₁
    cases e₂
    simp only at hh hsc hth hr ha hra
    subst hh
    subst hsc
    subst hth
    subst hr
    subst ha
    subst hra
    rfl
  rw [he]
  exact ⟨rfl, fun _ => rfl, rfl⟩

/-- A second environment record with the same field values as `envW`. -/
def envWcopy : Env :=
  { hash := fun s => s
    region := "us-east-1"
    account := "123456789012"
    scopeUid := "MyStack"
    thisUid := "Archiver"
    schedulerRoleArn := "arn:aws:iam::123456789012:role/scheduler-exec" }

/-- Witness for claim C6: two runs over separately constructed but equal
environments agree. -/
theorem derivation_deterministic_witness :
    nameSuffix envW = nameSuffix envWcopy ∧
    (∀ s, jobFingerprint envW s = jobFingerprint envWcopy s) ∧
    dailyCloudWatchLogArchiver envW propsW2 = dailyCloudWatchLogArchiver envWcopy propsW2 :=
  derivation_deterministic envW envWcopy propsW2 rfl rfl rfl rfl rfl rfl

/-! ### Claim C10 -/

/-- Counterexample to claim C10 as frozen: it implies that a duplicate-name
job list passes (uniqueness never being checked) and yields two coexisting
schedules with identical synthesized identifiers, but at the concrete input
with the same job twice the two positions are indeed assigned the identical
construct id Schedule<fingerprint> — and precisely because of that the
constructor throws at the second registration (duplicate child id in the
constructs library) and never emits the colliding schedules. -/
theorem duplicate_names_collide_counterexample :
    ("Schedule" ++ envW.hash jobW.name = "Schedule" ++ envW.hash jobW.name) ∧
    scheduleIds envW [jobW, jobW] =
      ["Schedule" ++ envW.hash jobW.name, "Schedule" ++ envW.hash jobW.name] ∧
    dailyCloudWatchLogArchiverSynth envW ⟨[jobW, jobW], none⟩ =
      Except.error (dupChildMsg ("Schedule" ++ envW.hash jobW.name)) ∧
    ∀ out, dailyCloudWatchLogArchiverSynth envW ⟨[jobW, jobW], none⟩ ≠ Except.ok out := by
  refine ⟨rfl, by rfl, by rfl, ?_⟩
  intro out hout
  rw [show dailyCloudWatchLogArchiverSynth envW ⟨[jobW, jobW], none⟩ =
      Except.error (dupChildMsg ("Schedule" ++ envW.hash jobW.name)) from by rfl] at hout
  exact Except.noConfusion hout

/-- Claim C10 (amended): the repository's own validation checks only the
list length; job-name uniqueness is never explicitly checked, and two jobs
with equal name fields are assigned identical fingerprints and hence the
identical synthesized construct id Schedule<fingerprint> — but in
consequence construction does not emit two colliding schedules: the second
registration under the already-used construct id makes the constructs
library throw, so a duplicate-name job list of valid length fails with the
duplicate-child-id error rather than either length-validation error. -/
theorem duplicate_names_crash (env : Env) (props : DailyCloudWatchLogArchiverProps)
    (h1 : 1 ≤ props.schedules.length) (h2 : props.schedules.length ≤ 60)
    (i j : Nat) (hi : i < props.schedules.length) (hj : j < props.schedules.length)
    (hne : i ≠ j)
    (hname : (props.schedules.get ⟨i, hi⟩).name = (props.schedules.get ⟨j, hj⟩).name) :
    env.hash ((props.schedules.get ⟨i, hi⟩).name) =
      env.hash ((props.schedules.get ⟨j, hj⟩).name) ∧
    "Schedule" ++ env.hash ((props.schedules.get ⟨i, hi⟩).name) =
      "Schedule" ++ env.hash ((props.schedules.get ⟨j, hj⟩).name) ∧
    ∃ cid, dailyCloudWatchLogArchiverSynth env props =
      Except.error (dupChildMsg cid) := by
  refine ⟨by rw [hname], by rw [hname], ?_⟩
  have hdup : ¬ (scheduleIds env props.schedules).Nodup := by
    intro hnd
    have hleni : i < (scheduleIds env props.schedules).length := by
      simp only [scheduleIds, List.length_map]; exact hi
    have hlenj : j < (scheduleIds env props.schedules).length := by
      simp only [scheduleIds, List.length_map]; exact hj
    have hgets : (scheduleIds env props.schedules)[i] =
        (scheduleIds env props.schedules)[j] := by
      simp only [scheduleIds, List.getElem_map]
      rw [List.get_eq_getElem, List.get_eq_getElem] at hname
      rw [jobFingerprint, jobFingerprint, hname]
    exact hne ((List.Nodup.getElem_inj_iff hnd).mp hgets)
  unfold dailyCloudWatchLogArchiverSynth
  rw [if_neg (by omega), if_neg (by omega)]
  cases hb : buildSchedules env
      (lambdaFunctionArn env
        (lambdaFunction env (resolveBucket env props.targetBucket).2).functionName)
      (scheduleGroupName env) 0 [] props.schedules with
  | ok res =>
    exact absurd (buildSchedules_ok_nodup env _ _ 0 [] props.schedules res hb).1 hdup
  | error msg =>
    obtain ⟨cid, rfl⟩ := buildSchedules_error_shape env _ _ 0 [] props.schedules msg hb
    exact ⟨cid, rfl⟩

/-- Witness for the amended claim C10: two jobs with the same name at
positions 0 and 1 of a two-job list. -/
theorem duplicate_names_crash_witness :
    envW.hash ((([jobW, jobW] : List ScheduleProperty).get ⟨0, by decide⟩).name) =
      envW.hash ((([jobW, jobW] : List ScheduleProperty).get ⟨1, by decide⟩).name) ∧
    "Schedule" ++ envW.hash ((([jobW, jobW] : List ScheduleProperty).get ⟨0, by decide⟩).name) =
      "Schedule" ++ envW.hash ((([jobW, jobW] : List ScheduleProperty).get ⟨1, by decide⟩).name) ∧
    ∃ cid, dailyCloudWatchLogArchiverSynth envW ⟨[jobW, jobW], none⟩ =
      Except.error (dupChildMsg cid) :=
  duplicate_names_crash envW ⟨[jobW, jobW], none⟩
    (by decide) (by decide) 0 1 (by decide) (by decide) (by decide) rfl
